import Mathlib

/-!
Verification development for `led_camera_control.py`.

The Python source is shallowly embedded below. Machine integers are
modelled as `ℕ` (the Python 2 sums use unbounded `long`s, so no wrap-around
is needed); Python floats are modelled as exact rationals `ℚ`; a call that
raises (failed `assert`, `AttributeError` on `None`, `ZeroDivisionError`)
is modelled as `Option.none`.
-/

/-- A captured frame: `image.shape == (v, h, c)` (rows, columns, channels)
together with per-pixel channel access `pixel row col channel`.
Out-of-range reads are not exercised by any statement below, so `pixel`
is a total function. -/
structure Frame where
  v : ℕ
  h : ℕ
  c : ℕ
  pixel : ℕ → ℕ → ℕ → ℕ

/-- Python slice index `image[(dim * f) : ...]`: the float product is
truncated toward zero, which for the non-negative values admitted by the
asserts is the floor. -/
def fracIndex (dim : ℕ) (f : ℚ) : ℕ :=
  (Int.floor ((dim : ℚ) * f)).toNat

/-- Embedding of `CameraProcessor.average_of_region` (lines 40-71 of
`led_camera_control.py`).  The four region asserts and the channel-count
assert become `none` results; the loop body reads `image[h_pix, v_pix, ch]`
— the full image with transposed indices, exactly as the source does — and
each channel sum is divided by `region.size`, the *element* count
`rows * cols * 3` of the slice (Python 2 `/` on integers is floor
division). A zero `region.size` would raise `ZeroDivisionError`, hence
`none`. -/
def average_of_region (image : Frame) (v_start v_end h_start h_end : ℚ) :
    Option (ℕ × ℕ × ℕ) :=
  if ¬(v_start < v_end ∧ h_start < h_end) then none
  else if ¬(0 ≤ v_start ∧ v_start ≤ 1 ∧ 0 ≤ v_end ∧ v_end ≤ 1) then none
  else if ¬(0 ≤ h_start ∧ h_start ≤ 1 ∧ 0 ≤ h_end ∧ h_end ≤ 1) then none
  else if image.c ≠ 3 then none
  else
    let v0 := fracIndex image.v v_start
    let v1 := fracIndex image.v v_end
    let h0 := fracIndex image.h h_start
    let h1 := fracIndex image.h h_end
    let rows := v1 - v0
    let cols := h1 - h0
    let size := rows * cols * 3
    let r_sum := (Finset.range rows).sum fun v_pix =>
      (Finset.range cols).sum fun h_pix => image.pixel h_pix v_pix 2
    let g_sum := (Finset.range rows).sum fun v_pix =>
      (Finset.range cols).sum fun h_pix => image.pixel h_pix v_pix 1
    let b_sum := (Finset.range rows).sum fun v_pix =>
      (Finset.range cols).sum fun h_pix => image.pixel h_pix v_pix 0
    if size = 0 then none
    else some (r_sum / size, g_sum / size, b_sum / size)

/-- What the specification says `average_of_region` does (§4.1): the same
validation, edge indices `round(dimension * fraction)`, channel sums taken
over exactly the pixels of the computed sub-rectangle (row `v0 + v_pix`,
column `h0 + h_pix`), each divided by the *pixel* count of the
sub-rectangle, reading channel 2 as red, 1 as green, 0 as blue. Kept
side by side with `average_of_region` so the two can be compared. -/
def average_of_region_spec (image : Frame) (v_start v_end h_start h_end : ℚ) :
    Option (ℕ × ℕ × ℕ) :=
  if ¬(v_start < v_end ∧ h_start < h_end) then none
  else if ¬(0 ≤ v_start ∧ v_start ≤ 1 ∧ 0 ≤ v_end ∧ v_end ≤ 1) then none
  else if ¬(0 ≤ h_start ∧ h_start ≤ 1 ∧ 0 ≤ h_end ∧ h_end ≤ 1) then none
  else if image.c ≠ 3 then none
  else
    let v0 := (round ((image.v : ℚ) * v_start)).toNat
    let v1 := (round ((image.v : ℚ) * v_end)).toNat
    let h0 := (round ((image.h : ℚ) * h_start)).toNat
    let h1 := (round ((image.h : ℚ) * h_end)).toNat
    let rows := v1 - v0
    let cols := h1 - h0
    let count := rows * cols
    let r_sum := (Finset.range rows).sum fun v_pix =>
      (Finset.range cols).sum fun h_pix => image.pixel (v0 + v_pix) (h0 + h_pix) 2
    let g_sum := (Finset.range rows).sum fun v_pix =>
      (Finset.range cols).sum fun h_pix => image.pixel (v0 + v_pix) (h0 + h_pix) 1
    let b_sum := (Finset.range rows).sum fun v_pix =>
      (Finset.range cols).sum fun h_pix => image.pixel (v0 + v_pix) (h0 + h_pix) 0
    if count = 0 then none
    else some (r_sum / count, g_sum / count, b_sum / count)

/-- A 4×4, 3-channel frame whose only nonzero pixel is at row 0, column 0
(outside the central 50%×50% region), with stored channel triple
`(12, 24, 36)`. -/
def cornerFrame : Frame where
  v := 4
  h := 4
  c := 3
  pixel := fun row col ch => if row = 0 ∧ col = 0 then 12 * (ch + 1) else 0

/-- A 4×4, 3-channel frame storing the channel triple `(100, 150, 200)` at
every pixel (so in particular uniformly inside the central region). -/
def uniformFrame : Frame where
  v := 4
  h := 4
  c := 3
  pixel := fun _ _ ch => 100 + 50 * ch

/-- The state of a `CameraProcessor` (lines 17-33): the PWM ceiling and the
three balance multipliers fixed at construction. The camera handle is
external and not part of the pipeline math. -/
structure CameraProcessor where
  pwm_max : ℚ
  r_balance : ℚ
  g_balance : ℚ
  b_balance : ℚ

/-- Embedding of `CameraProcessor.color_balance` (lines 79-87): pure
per-channel multiplication by the stored balance factors. -/
def CameraProcessor.color_balance (proc : CameraProcessor) (r g b : ℚ) :
    ℚ × ℚ × ℚ :=
  (r * proc.r_balance, g * proc.g_balance, b * proc.b_balance)

/-- Embedding of `CameraProcessor.scale_to_pwm` (lines 89-105): widen each
channel by subtracting `min(r, g, b)` and adding 1, then multiply every
channel by `pwm_max / max` of the widened values. -/
def CameraProcessor.scale_to_pwm (proc : CameraProcessor) (r g b : ℚ) :
    ℚ × ℚ × ℚ :=
  let min_rgb := min r (min g b)
  let r1 := r - min_rgb + 1
  let g1 := g - min_rgb + 1
  let b1 := b - min_rgb + 1
  let max_rgb := max r1 (max g1 b1)
  let scale_factor := proc.pwm_max / max_rgb
  (r1 * scale_factor, g1 * scale_factor, b1 * scale_factor)

/-- Embedding of `CameraProcessor.average_and_scale` (lines 35-38):
`average_of_region` with its default region, then `color_balance`, then
`scale_to_pwm`; a raise in the first stage propagates. -/
def CameraProcessor.average_and_scale (proc : CameraProcessor)
    (image : Frame) : Option (ℚ × ℚ × ℚ) :=
  (average_of_region image (1/4) (3/4) (1/4) (3/4)).map fun avg =>
    let bal := proc.color_balance (avg.1 : ℚ) (avg.2.1 : ℚ) (avg.2.2 : ℚ)
    proc.scale_to_pwm bal.1 bal.2.1 bal.2.2

/-- One iteration of `ControlThreads.cam_thread_func` (lines 117-125).
`captured` is what `capture_image` returned: `cv2.read` failure yields
`None` (the warning is logged and `image` is returned regardless), so the
argument is an `Option Frame`. The iteration's result is `none` when the
thread dies of an uncaught exception (`None.shape` raises
`AttributeError`, a failed assert raises `AssertionError`); otherwise it
is `some` of the newly published shared triple together with the flag
telling whether this iteration observed `exit_event` and broke out (the
check happens after capture, processing and publication). The previous
shared triple `state` is never re-published on a failed capture — the
thread simply dies. -/
def cam_thread_iteration (proc : CameraProcessor) (captured : Option Frame)
    (exit_is_set : Bool) (state : ℚ × ℚ × ℚ) :
    Option ((ℚ × ℚ × ℚ) × Bool) :=
  match captured with
  | none => none
  | some image =>
    match proc.average_and_scale image with
    | none => none
    | some rgb => some (rgb, exit_is_set)

/-- The three separate attribute stores behind the tuple assignment
`self.r, self.g, self.b = ...` (line 121): store into `self.r`. -/
def publish_r (x : ℚ) (s : ℚ × ℚ × ℚ) : ℚ × ℚ × ℚ := (x, s.2.1, s.2.2)

/-- Store into `self.g`. -/
def publish_g (x : ℚ) (s : ℚ × ℚ × ℚ) : ℚ × ℚ × ℚ := (s.1, x, s.2.2)

/-- Store into `self.b`. -/
def publish_b (x : ℚ) (s : ℚ × ℚ × ℚ) : ℚ × ℚ × ℚ := (s.1, s.2.1, x)

/-- Publishing a color is the sequence of the three unsynchronized channel
stores, in the order the tuple assignment performs them. -/
def publish_steps (c : ℚ × ℚ × ℚ) : List ((ℚ × ℚ × ℚ) → ℚ × ℚ × ℚ) :=
  [publish_r c.1, publish_g c.2.1, publish_b c.2.2]

/-- Run a prefix of the writer's stores: the states reachable between
stores are exactly what the unsynchronized reader in `led_thread_func`
can observe. -/
def run_steps (steps : List ((ℚ × ℚ × ℚ) → ℚ × ℚ × ℚ))
    (s : ℚ × ℚ × ℚ) : ℚ × ℚ × ℚ :=
  steps.foldl (fun acc f => f acc) s

/-- Observable actions of one worker-loop iteration, in program order. -/
inductive LoopEvent
  | capture
  | publish
  | check
  | release
  | exit_loop
  | fade
deriving DecidableEq

/-- Action trace of one `cam_thread_func` iteration (lines 117-125), as a
function of whether `exit_event` is set when the check on line 122 runs:
capture a frame, process and publish, and only then check the event; when
it is set, release the array (`self.array.__exit__()`) and break. -/
def cam_iteration_events (exit_is_set : Bool) : List LoopEvent :=
  [LoopEvent.capture, LoopEvent.publish, LoopEvent.check] ++
    (if exit_is_set then [LoopEvent.release, LoopEvent.exit_loop] else [])

/-- Action trace of one `led_thread_func` iteration (lines 127-134): fade
toward the shared triple, then check the event and break when set. -/
def led_iteration_events (exit_is_set : Bool) : List LoopEvent :=
  [LoopEvent.fade, LoopEvent.check] ++
    (if exit_is_set then [LoopEvent.exit_loop] else [])

/-- The only operation the program ever applies to `exit_event`
(a `threading.Event`): `set()` on line 138. `clear()` is never called. -/
inductive EventOp
  | set_op
deriving DecidableEq

/-- Apply a sequence of `exit_event` operations to its boolean state. -/
def run_event_ops : List EventOp → Bool → Bool
  | [], b => b
  | _ :: rest, _ => run_event_ops rest true

/-- C1: refuted on the code. For the valid default region on `cornerFrame`
— whose computed sub-rectangle (rows 1-2, columns 1-2) is entirely zero —
`average_of_region` nevertheless returns `(3, 2, 1)`: the loop body reads
`image[h_pix, v_pix]`, the top-left corner of the full image with
transposed indices, so the nonzero pixel at row 0, column 0 (outside the
sub-rectangle) contributes; the sums are moreover divided by
`region.size = rows * cols * 3`, not the pixel count. The spec-faithful
computation `average_of_region_spec` returns `(0, 0, 0)` on the same
input. -/
theorem average_of_region_corner_mismatch :
    average_of_region cornerFrame (1/4) (3/4) (1/4) (3/4) = some (3, 2, 1) ∧
    average_of_region_spec cornerFrame (1/4) (3/4) (1/4) (3/4) = some (0, 0, 0) ∧
    ((3 : ℕ), (2 : ℕ), (1 : ℕ)) ≠ (0, 0, 0) := by
  refine ⟨?_, ?_, by decide⟩
  · simp only [average_of_region, fracIndex, cornerFrame]
    norm_num
    decide
  · simp only [average_of_region_spec, cornerFrame]
    norm_num
    decide

/-- C2: refuted on the code. On the synthetic 4×4 frame storing
`(100, 150, 200)` at every pixel (hence uniformly inside the region),
with the region `(0.25, 0.75, 0.25, 0.75)`, `average_of_region` returns
`(66, 50, 33)` — each channel sum of four pixels divided by
`region.size = 12` — not the `(200, 150, 100)` the claim states. The
spec-faithful computation does return `(200, 150, 100)` (channel 2 read
as red, 1 as green, 0 as blue, divided by the pixel count 4). -/
theorem average_of_region_uniform_mismatch :
    average_of_region uniformFrame (1/4) (3/4) (1/4) (3/4) = some (66, 50, 33) ∧
    average_of_region_spec uniformFrame (1/4) (3/4) (1/4) (3/4) = some (200, 150, 100) ∧
    ((66 : ℕ), (50 : ℕ), (33 : ℕ)) ≠ (200, 150, 100) := by
  refine ⟨?_, ?_, by decide⟩
  · simp only [average_of_region, fracIndex, uniformFrame]
    norm_num
    decide
  · simp only [average_of_region_spec, uniformFrame]
    norm_num
    decide

/-- C6: confirmed. Whenever the region invariants are violated
(`v_start ≥ v_end`, or `h_start ≥ h_end`, or any fraction outside
`[0, 1]`) or the frame does not have exactly 3 channels,
`average_of_region` fails (assert → `none`) and returns no triple. -/
theorem average_of_region_invalid_none (image : Frame) (vs ve hs he : ℚ)
    (hbad : ve ≤ vs ∨ he ≤ hs ∨ vs < 0 ∨ 1 < vs ∨ ve < 0 ∨ 1 < ve ∨
      hs < 0 ∨ 1 < hs ∨ he < 0 ∨ 1 < he ∨ image.c ≠ 3) :
    average_of_region image vs ve hs he = none := by
  unfold average_of_region
  split_ifs with h1 h2 h3 h4
  all_goals try rfl
  exfalso
  rw [not_ne_iff] at h4
  rcases hbad with h | h | h | h | h | h | h | h | h | h | h
  · exact absurd h1.1 (not_lt.mpr h)
  · exact absurd h1.2 (not_lt.mpr h)
  · exact absurd h2.1 (not_le.mpr h)
  · exact absurd h2.2.1 (not_le.mpr h)
  · exact absurd h2.2.2.1 (not_le.mpr h)
  · exact absurd h2.2.2.2 (not_le.mpr h)
  · exact absurd h3.1 (not_le.mpr h)
  · exact absurd h3.2.1 (not_le.mpr h)
  · exact absurd h3.2.2.1 (not_le.mpr h)
  · exact absurd h3.2.2.2 (not_le.mpr h)
  · exact h h4

/-- C6 witness: the spec's own example of an invalid region,
`v_start = 0.8 > v_end = 0.2`, on a concrete frame. -/
theorem average_of_region_invalid_none_witness :
    average_of_region uniformFrame (8/10) (2/10) (1/4) (3/4) = none :=
  average_of_region_invalid_none uniformFrame (8/10) (2/10) (1/4) (3/4)
    (Or.inl (by norm_num))

/-- C3: confirmed. For non-negative channel inputs and `pwm_max > 0`, the
triple returned by `scale_to_pwm` has its brightest channel exactly equal
to `pwm_max`, and every returned channel lies in `[0, pwm_max]`. -/
theorem scale_to_pwm_saturates (proc : CameraProcessor) (r g b : ℚ)
    (hr : 0 ≤ r) (hg : 0 ≤ g) (hb : 0 ≤ b) (hp : 0 < proc.pwm_max) :
    max (proc.scale_to_pwm r g b).1
      (max (proc.scale_to_pwm r g b).2.1 (proc.scale_to_pwm r g b).2.2) =
        proc.pwm_max ∧
    0 ≤ (proc.scale_to_pwm r g b).1 ∧
    (proc.scale_to_pwm r g b).1 ≤ proc.pwm_max ∧
    0 ≤ (proc.scale_to_pwm r g b).2.1 ∧
    (proc.scale_to_pwm r g b).2.1 ≤ proc.pwm_max ∧
    0 ≤ (proc.scale_to_pwm r g b).2.2 ∧
    (proc.scale_to_pwm r g b).2.2 ≤ proc.pwm_max := by
  have hmr : min r (min g b) ≤ r := min_le_left _ _
  have hmg : min r (min g b) ≤ g := le_trans (min_le_right _ _) (min_le_left _ _)
  have hmb : min r (min g b) ≤ b := le_trans (min_le_right _ _) (min_le_right _ _)
  simp only [CameraProcessor.scale_to_pwm]
  set m := min r (min g b) with hm
  set r1 := r - m + 1 with hr1
  set g1 := g - m + 1 with hg1
  set b1 := b - m + 1 with hb1
  set M := max r1 (max g1 b1) with hM
  have h1r : 1 ≤ r1 := by rw [hr1]; linarith
  have h1g : 1 ≤ g1 := by rw [hg1]; linarith
  have h1b : 1 ≤ b1 := by rw [hb1]; linarith
  have hrM : r1 ≤ M := le_max_left _ _
  have hgM : g1 ≤ M := le_trans (le_max_left _ _) (le_max_right _ _)
  have hbM : b1 ≤ M := le_trans (le_max_right _ _) (le_max_right _ _)
  have hM0 : 0 < M := lt_of_lt_of_le one_pos (le_trans h1r hrM)
  have hsf : 0 < proc.pwm_max / M := div_pos hp hM0
  have hMsf : M * (proc.pwm_max / M) = proc.pwm_max := by
    rw [mul_comm, div_mul_cancel₀ _ (ne_of_gt hM0)]
  refine ⟨?_, ?_, ?_, ?_, ?_, ?_, ?_⟩
  · rw [← max_mul_of_nonneg _ _ hsf.le, ← max_mul_of_nonneg _ _ hsf.le, ← hM]
    exact hMsf
  · exact mul_nonneg (by linarith) hsf.le
  · calc r1 * (proc.pwm_max / M) ≤ M * (proc.pwm_max / M) :=
        mul_le_mul_of_nonneg_right hrM hsf.le
      _ = proc.pwm_max := hMsf
  · exact mul_nonneg (by linarith) hsf.le
  · calc g1 * (proc.pwm_max / M) ≤ M * (proc.pwm_max / M) :=
        mul_le_mul_of_nonneg_right hgM hsf.le
      _ = proc.pwm_max := hMsf
  · exact mul_nonneg (by linarith) hsf.le
  · calc b1 * (proc.pwm_max / M) ≤ M * (proc.pwm_max / M) :=
        mul_le_mul_of_nonneg_right hbM hsf.le
      _ = proc.pwm_max := hMsf

/-- C3 witness: the bounds at the concrete input `(10, 20, 30)` with
`pwm_max = 100`. -/
theorem scale_to_pwm_saturates_witness :
    max (CameraProcessor.scale_to_pwm ⟨100, 1, 1, 1⟩ 10 20 30).1
      (max (CameraProcessor.scale_to_pwm ⟨100, 1, 1, 1⟩ 10 20 30).2.1
        (CameraProcessor.scale_to_pwm ⟨100, 1, 1, 1⟩ 10 20 30).2.2) = 100 ∧
    0 ≤ (CameraProcessor.scale_to_pwm ⟨100, 1, 1, 1⟩ 10 20 30).1 ∧
    (CameraProcessor.scale_to_pwm ⟨100, 1, 1, 1⟩ 10 20 30).1 ≤ 100 ∧
    0 ≤ (CameraProcessor.scale_to_pwm ⟨100, 1, 1, 1⟩ 10 20 30).2.1 ∧
    (CameraProcessor.scale_to_pwm ⟨100, 1, 1, 1⟩ 10 20 30).2.1 ≤ 100 ∧
    0 ≤ (CameraProcessor.scale_to_pwm ⟨100, 1, 1, 1⟩ 10 20 30).2.2 ∧
    (CameraProcessor.scale_to_pwm ⟨100, 1, 1, 1⟩ 10 20 30).2.2 ≤ 100 :=
  scale_to_pwm_saturates ⟨100, 1, 1, 1⟩ 10 20 30 (by norm_num) (by norm_num)
    (by norm_num) (by norm_num)

/-- C4 counterexample: on `(10, 20, 30)` with `pwm_max = 100` the code
returns exactly `(100/21, 1100/21, 100)` ≈ `(4.76, 52.38, 100.0)`; the
green channel is 18 below the claimed ≈ 70.97 and the red channel 30
below the claimed ≈ 35.48, so the claimed triple is not approximately
returned. -/
theorem scale_to_pwm_golden_counterexample :
    CameraProcessor.scale_to_pwm ⟨100, 1, 1, 1⟩ 10 20 30 =
      (100/21, 1100/21, 100) ∧
    (3548 : ℚ) / 100 - 100 / 21 > 30 ∧ (7097 : ℚ) / 100 - 1100 / 21 > 18 := by
  refine ⟨?_, by norm_num, by norm_num⟩
  simp only [CameraProcessor.scale_to_pwm]
  norm_num [min_def, max_def]

/-- C4 as amended: on `(10, 20, 30)` with `pwm_max = 100` and no balance
correction, `scale_to_pwm` applies widen offsets of `-9` (giving
`(1, 11, 21)`) and the scale factor `100/21`, returning exactly
`(1 * (100/21), 11 * (100/21), 21 * (100/21))` ≈ `(4.76, 52.38, 100.0)`. -/
theorem scale_to_pwm_golden_exact :
    CameraProcessor.scale_to_pwm ⟨100, 1, 1, 1⟩ 10 20 30 =
      (1 * (100/21), 11 * (100/21), 21 * (100/21)) := by
  simp only [CameraProcessor.scale_to_pwm]
  norm_num [min_def, max_def]

/-- C5 counterexample: for the sample `(10, 20, 30)` and the admissible
uniform balance `k = 1/2`, scaling the balanced sample does not give the
same `PwmColor` as scaling the sample directly: the widen `+1` offsets do
not commute with a multiplicative rescaling. -/
theorem scale_balance_not_invariant :
    (0 : ℚ) < 1/2 ∧ (1 : ℚ)/2 ≤ 1 ∧
    CameraProcessor.scale_to_pwm ⟨100, 1/2, 1/2, 1/2⟩
        (CameraProcessor.color_balance ⟨100, 1/2, 1/2, 1/2⟩ 10 20 30).1
        (CameraProcessor.color_balance ⟨100, 1/2, 1/2, 1/2⟩ 10 20 30).2.1
        (CameraProcessor.color_balance ⟨100, 1/2, 1/2, 1/2⟩ 10 20 30).2.2 ≠
      CameraProcessor.scale_to_pwm ⟨100, 1/2, 1/2, 1/2⟩ 10 20 30 := by
  refine ⟨by norm_num, by norm_num, ?_⟩
  simp only [CameraProcessor.scale_to_pwm, CameraProcessor.color_balance]
  norm_num [min_def, max_def]

/-- C5 as amended: applying a uniform admissible balance `{k, k, k}`
before scaling yields the identical `PwmColor` as scaling directly when
`k = 1` or when the sample's three channels are equal; for other samples
and factors the widen `+1` offsets break the invariance (see the
counterexample). -/
theorem scale_balance_uniform_cases (proc : CameraProcessor) (r g b k : ℚ)
    (hbr : proc.r_balance = k) (hbg : proc.g_balance = k)
    (hbb : proc.b_balance = k) (hk0 : 0 < k) (hk1 : k ≤ 1)
    (hcase : k = 1 ∨ (r = g ∧ g = b)) :
    proc.scale_to_pwm (proc.color_balance r g b).1
        (proc.color_balance r g b).2.1 (proc.color_balance r g b).2.2 =
      proc.scale_to_pwm r g b := by
  rcases hcase with hk | ⟨hrg, hgb⟩
  · subst hk
    simp [CameraProcessor.color_balance, hbr, hbg, hbb]
  · subst hgb
    subst hrg
    simp only [CameraProcessor.color_balance, CameraProcessor.scale_to_pwm,
      hbr, hbg, hbb]
    simp [min_self, max_self, sub_self]

/-- C5 witness for the amended statement: equal channels `(7, 7, 7)` under
the uniform balance `k = 1/2` with `pwm_max = 100`. -/
theorem scale_balance_uniform_cases_witness :
    CameraProcessor.scale_to_pwm ⟨100, 1/2, 1/2, 1/2⟩
        (CameraProcessor.color_balance ⟨100, 1/2, 1/2, 1/2⟩ 7 7 7).1
        (CameraProcessor.color_balance ⟨100, 1/2, 1/2, 1/2⟩ 7 7 7).2.1
        (CameraProcessor.color_balance ⟨100, 1/2, 1/2, 1/2⟩ 7 7 7).2.2 =
      CameraProcessor.scale_to_pwm ⟨100, 1/2, 1/2, 1/2⟩ 7 7 7 :=
  scale_balance_uniform_cases ⟨100, 1/2, 1/2, 1/2⟩ 7 7 7 (1/2) rfl rfl rfl
    (by norm_num) (by norm_num) (Or.inr ⟨rfl, rfl⟩)

/-- C10: confirmed. `scale_to_pwm` is invariant under a uniform additive
shift of its three inputs, for every shift `c` and every processor: the
widen step subtracts the (equally shifted) channel minimum, so the
widened triple — and hence the result — is unchanged. -/
theorem scale_to_pwm_shift_invariant (proc : CameraProcessor) (r g b c : ℚ) :
    proc.scale_to_pwm (r + c) (g + c) (b + c) = proc.scale_to_pwm r g b := by
  simp only [CameraProcessor.scale_to_pwm]
  rw [min_add_add_right, min_add_add_right]
  have e1 : r + c - (min r (min g b) + c) + 1 = r - min r (min g b) + 1 := by ring
  have e2 : g + c - (min r (min g b) + c) + 1 = g - min r (min g b) + 1 := by ring
  have e3 : b + c - (min r (min g b) + c) + 1 = b - min r (min g b) + 1 := by ring
  rw [e1, e2, e3]

/-- C7: refuted on the code. When frame acquisition fails (`cam.read`
returns no frame, so `capture_image` logs a warning and returns `None`),
the next `cam_thread_func` iteration does not keep the previous shared
triple and continue: `average_and_scale(None)` dereferences
`None.shape` and the uncaught exception kills the sampling thread
(`none`), instead of the claimed no-update outcome
`some ((0, 0, 0), false)`. -/
theorem cam_iteration_capture_failure_fatal :
    cam_thread_iteration ⟨100, 1, 1, 1⟩ none false (0, 0, 0) = none ∧
    cam_thread_iteration ⟨100, 1, 1, 1⟩ none false (0, 0, 0) ≠
      some ((0, 0, 0), false) := by
  exact ⟨rfl, by simp [cam_thread_iteration]⟩

/-- C8: refuted on the code. The shared triple is published by three
separate unsynchronized attribute stores; with the shared color initially
`(0, 0, 0)` and the sampler publishing `(1, 2, 3)`, a reader running
after the first store observes `(1, 0, 0)` — a torn triple that is
neither the previous fully published value nor the new one. -/
theorem torn_read_possible :
    run_steps ((publish_steps (1, 2, 3)).take 1) (0, 0, 0) = (1, 0, 0) ∧
    run_steps (publish_steps (1, 2, 3)) (0, 0, 0) = (1, 2, 3) ∧
    ((1 : ℚ), (0 : ℚ), (0 : ℚ)) ≠ (0, 0, 0) ∧
    ((1 : ℚ), (0 : ℚ), (0 : ℚ)) ≠ (1, 2, 3) := by
  refine ⟨rfl, rfl, ?_, ?_⟩
  · simp [Prod.ext_iff]
  · simp [Prod.ext_iff]

/-- C9 counterexample: with `exit_event` already set when an iteration of
the sampling loop begins, the iteration's first action is still the frame
capture — the signal check only comes after capture, processing and
publication, so the sampling loop does not check the signal first. -/
theorem cam_checks_signal_after_capture :
    (cam_iteration_events true).head? = some LoopEvent.capture ∧
    LoopEvent.capture ≠ LoopEvent.check := by
  exact ⟨rfl, by decide⟩

/-- C9 as amended: the shutdown signal is monotonic (the program only ever
applies `set`, so once true it stays true); both worker loops poll it on
every iteration — the sampling loop checking it last, after acquiring,
processing and publishing a frame; and each loop exits within the
iteration in which it observes the signal set, the sampling loop after
releasing the actuator. -/
theorem shutdown_polling_amended :
    (∀ ops : List EventOp, run_event_ops ops true = true) ∧
    (∀ e : Bool, LoopEvent.check ∈ cam_iteration_events e ∧
      LoopEvent.check ∈ led_iteration_events e) ∧
    cam_iteration_events true =
      [LoopEvent.capture, LoopEvent.publish, LoopEvent.check,
        LoopEvent.release, LoopEvent.exit_loop] ∧
    led_iteration_events true =
      [LoopEvent.fade, LoopEvent.check, LoopEvent.exit_loop] ∧
    LoopEvent.exit_loop ∉ cam_iteration_events false ∧
    LoopEvent.exit_loop ∉ led_iteration_events false := by
  refine ⟨?_, ?_, rfl, rfl, by decide, by decide⟩
  · intro ops
    induction ops with
    | nil => rfl
    | cons op rest ih => cases op; exact ih
  · intro e
    cases e
    · exact ⟨by decide, by decide⟩
    · exact ⟨by decide, by decide⟩
